import Mathlib

/-!
Verification development for the rustifacts file-flattening tool
(src/artifact.rs, src/config.rs, src/config_file.rs, src/presets.rs,
src/main.rs), shallowly embedded in Lean.

Paths are modelled component-wise, mirroring Rust's `std::path`
semantics: `Path::join` replaces the base when the argument is
absolute, `Path::starts_with` and `Path::strip_prefix` compare whole
components, and `Path::file_name` returns `None` for a path ending in
`..` or with no components.  The model assumes component lists are
already normalised (no empty or `.` components), which `parsePath`
enforces when a string is parsed into a path, matching Rust's
`Components` normalisation.

The file system visible to `Artifact::collect` is modelled as the list
of regular-file entries yielded by the `WalkDir` traversal of the
source directory, each carrying the file's text content when
`fs::read_to_string` would succeed and `none` when it would fail.
-/

namespace Rustifacts

/-- Models a file-system path: an absolute-path flag plus the list of
normal components, mirroring Rust's component-wise path view. -/
structure FsPath where
  absolute : Bool
  components : List String
deriving DecidableEq, Repr

/-- Models `Path::join`: an absolute argument replaces the base path. -/
def FsPath.join (p q : FsPath) : FsPath :=
  if q.absolute then q else ⟨p.absolute, p.components ++ q.components⟩

/-- Models `Path::starts_with`: component-wise comparison, where an
absolute path can only start with an absolute path. -/
def FsPath.startsWith (p q : FsPath) : Bool :=
  p.absolute == q.absolute && q.components.isPrefixOf p.components

/-- Models `Path::strip_prefix`, which errs (here: `none`) when the
base is not a component-wise parent of the path. -/
def FsPath.stripDir (p base : FsPath) : Option FsPath :=
  if p.startsWith base then
    some ⟨false, p.components.drop base.components.length⟩
  else none

/-- Models `Path::file_name`: the last component, or `None` when the
path has no components or ends in a parent-directory component. -/
def FsPath.fileName (p : FsPath) : Option String :=
  match p.components.getLast? with
  | some n => if n = ".." then none else some n
  | none => none

/-- Splitting accumulator: models Rust's `str::split` on a single
separator character (an empty string yields one empty piece, adjacent
separators yield empty pieces). -/
def splitCharGo (sep : Char) : List Char → List Char → List String
  | [], acc => [⟨acc.reverse⟩]
  | c :: cs, acc =>
    if c = sep then ⟨acc.reverse⟩ :: splitCharGo sep cs []
    else splitCharGo sep cs (c :: acc)

/-- Models Rust's `str::split(sep)` collected into a list. -/
def splitChar (sep : Char) (s : String) : List String :=
  splitCharGo sep s.data []

/-- Models `Vec::join(sep)` / path rendering with a one-character
separator. -/
def joinChar (sep : Char) : List String → String
  | [] => ""
  | [s] => s
  | s :: rest => s ++ ⟨[sep]⟩ ++ joinChar sep rest

/-- Models `str::trim`: strip leading and trailing whitespace. -/
def trimStr (s : String) : String :=
  ⟨((s.data.dropWhile Char.isWhitespace).reverse.dropWhile
      Char.isWhitespace).reverse⟩

/-- Models `str::to_lowercase` for the ASCII extensions the tool
compares: upper-case ASCII letters are mapped to lower case. -/
def lowerStr (s : String) : String :=
  ⟨s.data.map (fun c =>
    if 65 ≤ c.toNat ∧ c.toNat ≤ 90 then Char.ofNat (c.toNat + 32) else c)⟩

/-- True when the string begins with the path separator, i.e. the
parsed path is absolute. -/
def leadSlash (s : String) : Bool :=
  match s.data with
  | [] => false
  | c :: _ => c = '/'

/-- Models parsing a string into a path (`PathBuf::from`), with Rust's
component normalisation: `//` and interior `.` components vanish. -/
def parsePath (s : String) : FsPath :=
  ⟨leadSlash s, (splitChar '/' s).filter (fun c => c ≠ "" ∧ c ≠ ".")⟩

/-- Models the `Config` struct of src/config.rs (the clap-parsed
command-line options). -/
structure Config where
  source_dir : FsPath
  dest_dir : FsPath
  additional_ignored_dirs : String
  target_dirs : Option String
  excluded_extensions : String
  included_extensions : String
  preset : Option String
  config_file : Option String
deriving DecidableEq, Repr

/-- The built-in ignored-directory names hard-coded at the top of
`Config::get_ignored_dirs`. -/
def defaultIgnoredDirs : List String :=
  [".git", ".idea", ".vscode", "node_modules", "target", "build",
   "dist", "__pycache__"]

/-- Models `Config::get_ignored_dirs`: defaults, then the destination
directory's file name when it has one, then the comma-separated
user-supplied additions with empty pieces dropped. -/
def Config.get_ignored_dirs (c : Config) : List String :=
  (match c.dest_dir.fileName with
   | some n => defaultIgnoredDirs ++ [n]
   | none => defaultIgnoredDirs) ++
  (splitChar ',' c.additional_ignored_dirs).filter (fun s => s ≠ "")

/-- Models `Config::get_target_dirs`: the comma-separated list when
present, the empty list otherwise. -/
def Config.get_target_dirs (c : Config) : List FsPath :=
  match c.target_dirs with
  | some dirs => ((splitChar ',' dirs).filter (fun s => s ≠ "")).map parsePath
  | none => []

/-- Models `Config::get_excluded_extensions`: split on commas, drop
empty pieces, trim and lower-case the rest. -/
def Config.get_excluded_extensions (c : Config) : List String :=
  ((splitChar ',' c.excluded_extensions).filter (fun s => s ≠ "")).map
    (fun s => lowerStr (trimStr s))

/-- Models `Config::get_included_extensions`: split on commas, drop
empty pieces, trim and lower-case the rest. -/
def Config.get_included_extensions (c : Config) : List String :=
  ((splitChar ',' c.included_extensions).filter (fun s => s ≠ "")).map
    (fun s => lowerStr (trimStr s))

/-- One regular-file entry yielded by the `WalkDir` traversal:
its absolute path and its content, `none` when `fs::read_to_string`
would fail on it (binary/unreadable/vanished file). -/
structure FsFile where
  path : FsPath
  content : Option String
deriving DecidableEq, Repr

/-- Models the `Artifact` struct of src/artifact.rs. -/
structure Artifact where
  original_path : FsPath
  new_filename : String
  content : String
deriving DecidableEq, Repr

/-- Models the `ArtifactError` enum of src/artifact.rs. -/
inductive ArtifactError where
  | ioError : ArtifactError
  | stripFail : ArtifactError
deriving DecidableEq, Repr

/-- Character-level body of `str::replace(MAIN_SEPARATOR, "_")` for a
single-character pattern: each separator becomes an underscore. -/
def replaceSepChars : List Char → List Char
  | [] => []
  | c :: cs => (if c = '/' then '_' else c) :: replaceSepChars cs

/-- Models `Artifact::generate_new_filename` applied to the relative
path's string form: every path-separator character becomes `_`. -/
def Artifact.generate_new_filename (s : String) : String :=
  ⟨replaceSepChars s.data⟩

/-- The string form (`to_string_lossy`) of a relative path. -/
def FsPath.render (p : FsPath) : String :=
  joinChar '/' p.components

/-- Models `Artifact::new`: strip the source prefix (an error skips the
file), read the content (an error skips the file), and build the
artifact with the flattened filename. -/
def Artifact.new (f : FsFile) (source_dir : FsPath) : Option Artifact :=
  match f.path.stripDir source_dir with
  | none => none
  | some rel =>
    match f.content with
    | none => none
    | some text =>
      some ⟨f.path, Artifact.generate_new_filename rel.render, text⟩

/-- Models `Artifact::is_ignored`: true when the absolute path starts
with `source_dir.join(d)` for some ignored-directory entry `d`. -/
def Artifact.is_ignored (path source_dir : FsPath)
    (ignored_dirs : List String) : Bool :=
  ignored_dirs.any (fun d => path.startsWith (source_dir.join (parsePath d)))

/-- The per-file body of the loop in `Artifact::collect`: skip ignored
paths, warn-and-skip files whose `Artifact::new` fails, accumulate the
rest in traversal order. -/
def collectGo (cfg : Config) (ignored : List String) :
    List FsFile → List Artifact
  | [] => []
  | f :: rest =>
    if Artifact.is_ignored f.path cfg.source_dir ignored then
      collectGo cfg ignored rest
    else
      match Artifact.new f cfg.source_dir with
      | some a => a :: collectGo cfg ignored rest
      | none => collectGo cfg ignored rest

/-- Models `Artifact::collect` over the file entries `fs` yielded by
the walk of `cfg.source_dir`: resolve the ignored list once, run the
loop, and return `Ok` of the accumulated artifacts. -/
def Artifact.collect (cfg : Config) (fs : List FsFile) :
    Except ArtifactError (List Artifact) :=
  .ok (collectGo cfg cfg.get_ignored_dirs fs)

/-- The write-phase state: the set of existing directories and the
written files, most recent write first (a lookup takes the first
match, so a later write of the same path overwrites an earlier one). -/
structure WriteState where
  dirs : List FsPath
  files : List (FsPath × String)
deriving DecidableEq, Repr

/-- All ancestor paths of `p` (including `p` itself): what
`fs::create_dir_all` brings into existence. -/
def ancestors (p : FsPath) : List FsPath :=
  (List.range (p.components.length + 1)).map
    (fun n => ⟨p.absolute, p.components.take n⟩)

/-- Models `fs::create_dir_all dest_dir`: the destination directory
and every missing parent now exist; files are untouched. -/
def create_dir_all (p : FsPath) (st : WriteState) : WriteState :=
  ⟨ancestors p ++ st.dirs, st.files⟩

/-- Reads the content of a written file: first (most recent) match. -/
def findContent : List (FsPath × String) → FsPath → Option String
  | [], _ => none
  | (q, c) :: rest, p => if q = p then some c else findContent rest p

/-- Models `Artifact::write`: write the content to
`dest_dir.join(new_filename)`, truncating any existing file there;
`writeFails` says which destination paths the OS rejects, and a
rejected write returns an error leaving the state unchanged. -/
def Artifact.write (a : Artifact) (dest_dir : FsPath)
    (writeFails : FsPath → Bool) (st : WriteState) : Option WriteState :=
  let dest_path := dest_dir.join (parsePath a.new_filename)
  if writeFails dest_path then none
  else some ⟨st.dirs, (dest_path, a.content) :: st.files⟩

/-- The loop of `Artifact::write_all`: write each artifact in order,
aborting at the first failure; the state reached so far is kept (the
files already on disk stay on disk). -/
def write_allGo (dest_dir : FsPath) (writeFails : FsPath → Bool) :
    List Artifact → WriteState → Bool × WriteState
  | [], st => (true, st)
  | a :: rest, st =>
    match a.write dest_dir writeFails st with
    | none => (false, st)
    | some st' => write_allGo dest_dir writeFails rest st'

/-- Models `Artifact::write_all`: `create_dir_all(dest_dir)` first
(`createDirFails` says whether the OS rejects it, aborting the whole
batch), then each artifact is written in order.  The returned flag is
`true` exactly when the whole batch succeeded; the returned state is
the disk as the batch left it. -/
def Artifact.write_all (artifacts : List Artifact) (dest_dir : FsPath)
    (createDirFails : Bool) (writeFails : FsPath → Bool)
    (st : WriteState) : Bool × WriteState :=
  if createDirFails then (false, st)
  else write_allGo dest_dir writeFails artifacts (create_dir_all dest_dir st)

/-- Models the `ConfigFile` struct of src/config_file.rs: every field
optional, as deserialised from the TOML document. -/
structure ConfigFile where
  source_dir : Option String
  dest_dir : Option String
  additional_ignored_dirs : Option (List String)
  target_dirs : Option (List String)
  excluded_extensions : Option (List String)
  included_extensions : Option (List String)
deriving DecidableEq, Repr

/-- Models `ConfigFile::apply_to_config`: each `Some` field of the
file overwrites the corresponding field of the config, list-valued
fields being joined with commas; `None` fields leave the config
untouched. -/
def ConfigFile.apply_to_config (cf : ConfigFile) (c : Config) : Config :=
  let c1 := match cf.source_dir with
    | some s => { c with source_dir := parsePath s }
    | none => c
  let c2 := match cf.dest_dir with
    | some s => { c1 with dest_dir := parsePath s }
    | none => c1
  let c3 := match cf.additional_ignored_dirs with
    | some l => { c2 with additional_ignored_dirs := joinChar ',' l }
    | none => c2
  let c4 := match cf.target_dirs with
    | some l => { c3 with target_dirs := some (joinChar ',' l) }
    | none => c3
  let c5 := match cf.excluded_extensions with
    | some l => { c4 with excluded_extensions := joinChar ',' l }
    | none => c4
  match cf.included_extensions with
  | some l => { c5 with included_extensions := joinChar ',' l }
  | none => c5

/-- Models the `PresetConfig` struct of src/presets.rs. -/
structure PresetConfig where
  ignored_dirs : List String
  included_extensions : List String
  excluded_extensions : List String
  target_dirs : List String
deriving DecidableEq, Repr

/-- Models `get_preset_configs` of src/presets.rs as a lookup from the
preset name to its configuration. -/
def get_preset_configs (name : String) : Option PresetConfig :=
  if name = "nextjs" then
    some ⟨["node_modules", ".next", "out", ".git"],
          ["js", "jsx", "ts", "tsx", "json", "md", "css"],
          [],
          [".", "src", "components", "styles", "public"]⟩
  else if name = "rust" then
    some ⟨["target", ".git", ".idea", ".vscode"],
          ["rs", "toml", "md", "json", "yml", "yaml"],
          [],
          [".", "src", "tests", "examples", "benches"]⟩
  else none

/-- Models `apply_preset` of src/presets.rs: overwrite the four
list-backed fields from the preset, joined with commas, or err when
the preset name is unknown. -/
def apply_preset (c : Config) (preset_name : String) :
    Except String Config :=
  match get_preset_configs preset_name with
  | some p =>
    .ok { c with
          additional_ignored_dirs := joinChar ',' p.ignored_dirs,
          included_extensions := joinChar ',' p.included_extensions,
          excluded_extensions := joinChar ',' p.excluded_extensions,
          target_dirs := some (joinChar ',' p.target_dirs) }
  | none => .error ("Preset not found")

/-- The spec's wording of flattening, stated directly as a character
map: every directory-separator character of the relative path's string
becomes an underscore.  Kept separate from
`Artifact.generate_new_filename` (translated from the source) so the
two can be compared. -/
def specFlatten (s : String) : String :=
  ⟨s.data.map (fun c => if c = '/' then '_' else c)⟩

/-- Concrete configuration used to exhibit the extension-filter gap:
`excluded_extensions = "txt"`, everything else default-like. -/
def c1Config : Config :=
  ⟨⟨true, ["proj"]⟩, ⟨false, ["claude_files"]⟩, "", none, "txt", "",
   none, none⟩

/-- A single readable `a.txt` file at the source root. -/
def c1Files : List FsFile :=
  [⟨⟨true, ["proj", "a.txt"]⟩, some "hello"⟩]

/-- Concrete configuration used to exhibit the target-directory gap:
`target_dirs = Some("src")`. -/
def c2Config : Config :=
  ⟨⟨true, ["proj"]⟩, ⟨false, ["claude_files"]⟩, "", some "src", "", "",
   none, none⟩

/-- A single readable file lying outside the `src` target subtree. -/
def c2Files : List FsFile :=
  [⟨⟨true, ["proj", "other", "a.txt"]⟩, some "hi"⟩]

theorem replaceSepChars_eq_map (l : List Char) :
    replaceSepChars l = l.map (fun c => if c = '/' then '_' else c) := by
  induction l with
  | nil => rfl
  | cons c cs ih => simp [replaceSepChars, ih]

theorem replaceSepChars_idem (l : List Char) :
    replaceSepChars (replaceSepChars l) = replaceSepChars l := by
  induction l with
  | nil => rfl
  | cons c cs ih =>
    by_cases h : c = '/' <;> simp [replaceSepChars, h, ih]

theorem replaceSepChars_id_of_no_sep (l : List Char) (h : '/' ∉ l) :
    replaceSepChars l = l := by
  induction l with
  | nil => rfl
  | cons c cs ih =>
    simp only [List.mem_cons, not_or] at h
    simp [replaceSepChars, Ne.symm h.1, ih h.2]

/-- C4: the flattened filename is exactly the relative path's string
with every separator character replaced by an underscore; flattening
is idempotent; and a string with no separator (a file directly under
the source root) is left unchanged. -/
theorem generate_new_filename_correct (s : String) :
    Artifact.generate_new_filename s = specFlatten s ∧
    Artifact.generate_new_filename (Artifact.generate_new_filename s) =
      Artifact.generate_new_filename s ∧
    ('/' ∉ s.data → Artifact.generate_new_filename s = s) := by
  refine ⟨?_, ?_, ?_⟩
  · exact congrArg String.mk (replaceSepChars_eq_map s.data)
  · exact congrArg String.mk (replaceSepChars_idem s.data)
  · intro h
    exact congrArg String.mk (replaceSepChars_id_of_no_sep s.data h)

/-- Witness for C4 at the concrete input "file1.txt" (a file directly
under the source root), discharging the no-separator hypothesis. -/
theorem generate_new_filename_correct_witness :
    Artifact.generate_new_filename "file1.txt" = "file1.txt" :=
  (generate_new_filename_correct "file1.txt").2.2 (by decide)

/-- C10: `Artifact::collect` always returns `Ok`: walk errors are
discarded by the traversal filter and every per-file failure is
skipped after a warning, so no configuration or file system makes it
return an error. -/
theorem collect_never_errors (cfg : Config) (fs : List FsFile) :
    (∃ l, Artifact.collect cfg fs = Except.ok l) ∧
    ∀ ( e : ArtifactError), Artifact.collect cfg fs ≠ Except.error e := by
  exact ⟨⟨_, rfl⟩, fun e h => by simp [Artifact.collect] at h⟩

/-- C1 (code behavior at the failing input): with
`excluded_extensions = "txt"` the extension is in the excluded list,
yet `Artifact::collect` still returns the `a.txt` artifact — the
extension filters are never consulted by the collection loop. -/
theorem collect_ignores_extension_filters :
    "txt" ∈ c1Config.get_excluded_extensions ∧
    c1Config.get_included_extensions = [] ∧
    Artifact.collect c1Config c1Files =
      Except.ok [⟨⟨true, ["proj", "a.txt"]⟩, "a.txt", "hello"⟩] :=
  ⟨by decide, by decide, rfl⟩

/-- C2 (code behavior at the failing input): with
`target_dirs = Some("src")` the configuration names `src` as the only
target subtree, yet `Artifact::collect` yields a file under
`proj/other`, outside every target subtree — the traversal is never
restricted to the target directories. -/
theorem collect_ignores_target_dirs :
    c2Config.get_target_dirs = [⟨false, ["src"]⟩] ∧
    Artifact.collect c2Config c2Files =
      Except.ok [⟨⟨true, ["proj", "other", "a.txt"]⟩, "other_a.txt", "hi"⟩] :=
  ⟨by decide, rfl⟩

/-- The acceptance-and-build step applied to one candidate file by the
loop of `Artifact::collect`. -/
def collectStep (cfg : Config) (ignored : List String) (f : FsFile) :
    Option Artifact :=
  if Artifact.is_ignored f.path cfg.source_dir ignored then none
  else Artifact.new f cfg.source_dir

theorem collectGo_eq_filterMap (cfg : Config) (ignored : List String)
    (fs : List FsFile) :
    collectGo cfg ignored fs = fs.filterMap (collectStep cfg ignored) := by
  induction fs with
  | nil => rfl
  | cons f rest ih =>
    cases h : Artifact.is_ignored f.path cfg.source_dir ignored with
    | true => simp [collectGo, collectStep, h, ih]
    | false =>
      cases hn : Artifact.new f cfg.source_dir with
      | none => simp [collectGo, collectStep, h, hn, ih]
      | some a => simp [collectGo, collectStep, h, hn, ih]

theorem collectStep_eq_some {cfg : Config} {ignored : List String}
    {f : FsFile} {a : Artifact} (h : collectStep cfg ignored f = some a) :
    Artifact.is_ignored f.path cfg.source_dir ignored = false ∧
    Artifact.new f cfg.source_dir = some a := by
  unfold collectStep at h
  cases hi : Artifact.is_ignored f.path cfg.source_dir ignored with
  | true => rw [hi] at h; simp at h
  | false => rw [hi] at h; simp at h; exact ⟨rfl, h⟩

theorem Artifact.new_original_path {f : FsFile} {s : FsPath}
    {a : Artifact} (h : Artifact.new f s = some a) :
    a.original_path = f.path := by
  unfold Artifact.new at h
  cases h1 : f.path.stripDir s with
  | none => rw [h1] at h; exact absurd h (by simp)
  | some rel =>
    rw [h1] at h
    cases h2 : f.content with
    | none => rw [h2] at h; exact absurd h (by simp)
    | some text =>
      rw [h2] at h
      cases h
      rfl

theorem mem_collectGo {cfg : Config} {ignored : List String}
    {fs : List FsFile} {a : Artifact} :
    a ∈ collectGo cfg ignored fs ↔
      ∃ f ∈ fs, collectStep cfg ignored f = some a := by
  rw [collectGo_eq_filterMap, List.mem_filterMap]

/-- C3: whatever the configuration (in particular one whose target
directories overlap), the artifact list returned by
`Artifact::collect` never contains two artifacts with the same
`original_path`, given that the traversal yields each path once. -/
theorem collect_no_duplicate_paths (cfg : Config) (fs : List FsFile)
    (hdist : fs.Pairwise (fun f g => f.path ≠ g.path)) :
    ∀ l, Artifact.collect cfg fs = Except.ok l →
      l.Pairwise (fun a b => a.original_path ≠ b.original_path) := by
  intro l hl
  have hl' : collectGo cfg cfg.get_ignored_dirs fs = l :=
    Except.ok.inj hl
  subst hl'
  induction fs with
  | nil => simp [collectGo]
  | cons f rest ih =>
    have hf := (List.pairwise_cons.mp hdist).1
    have hrest := (List.pairwise_cons.mp hdist).2
    have ihr := ih hrest (by rfl)
    cases hi : Artifact.is_ignored f.path cfg.source_dir
        cfg.get_ignored_dirs with
    | true => simpa [collectGo, hi] using ihr
    | false =>
      cases hn : Artifact.new f cfg.source_dir with
      | none => simpa [collectGo, hi, hn] using ihr
      | some a =>
        simp only [collectGo, hi, hn, Bool.false_eq_true, if_false]
        rw [List.pairwise_cons]
        refine ⟨?_, ihr⟩
        intro b hb
        obtain ⟨g, hg, hstep⟩ := mem_collectGo.mp hb
        have hbg : b.original_path = g.path :=
          Artifact.new_original_path (collectStep_eq_some hstep).2
        have hag : a.original_path = f.path :=
          Artifact.new_original_path hn
        rw [hag, hbg]
        exact hf g hg

/-- Witness for C3: a concrete two-file traversal with distinct paths
yields a duplicate-free artifact list. -/
theorem collect_no_duplicate_paths_witness :
    ∃ l, Artifact.collect c2Config
        [⟨⟨true, ["proj", "a.txt"]⟩, some "x"⟩,
         ⟨⟨true, ["proj", "src", "b.rs"]⟩, some "y"⟩] = Except.ok l ∧
      l.Pairwise (fun a b => a.original_path ≠ b.original_path) :=
  ⟨_, rfl,
    collect_no_duplicate_paths c2Config
      [⟨⟨true, ["proj", "a.txt"]⟩, some "x"⟩,
       ⟨⟨true, ["proj", "src", "b.rs"]⟩, some "y"⟩]
      (by decide) _ rfl⟩

/-- C7: when one candidate file's processing fails (unreadable content
or a path that cannot be stripped of the source prefix), the run still
returns `Ok`, the failing file contributes no artifact, and every
other candidate that is not ignored and processes successfully is in
the returned list. -/
theorem collect_skips_failing_file (cfg : Config) (fs : List FsFile)
    (bad : FsFile)
    (hdist : fs.Pairwise (fun f g => f.path ≠ g.path))
    (hmem : bad ∈ fs)
    (hfail : Artifact.new bad cfg.source_dir = none) :
    ∃ l, Artifact.collect cfg fs = Except.ok l ∧
      (∀ a ∈ l, a.original_path ≠ bad.path) ∧
      (∀ f ∈ fs,
        Artifact.is_ignored f.path cfg.source_dir cfg.get_ignored_dirs
          = false →
        ∀ a, Artifact.new f cfg.source_dir = some a → a ∈ l) := by
  refine ⟨collectGo cfg cfg.get_ignored_dirs fs, rfl, ?_, ?_⟩
  · intro a ha
    obtain ⟨g, hg, hstep⟩ := mem_collectGo.mp ha
    have hnew := (collectStep_eq_some hstep).2
    have hag : a.original_path = g.path := Artifact.new_original_path hnew
    rw [hag]
    intro hgb
    by_cases hgbad : g = bad
    · rw [hgbad] at hnew
      rw [hfail] at hnew
      exact Option.noConfusion hnew
    · exact
        (List.Pairwise.forall (fun x y h => (h ∘ Eq.symm)) hdist
          hg hmem hgbad) hgb
  · intro f hf hig a hn
    exact mem_collectGo.mpr ⟨f, hf, by simp [collectStep, hig, hn]⟩

/-- Witness for C7: a readable file and an unreadable file; the run
returns `Ok`, the unreadable one is absent and the readable one is
present. -/
theorem collect_skips_failing_file_witness :
    ∃ l, Artifact.collect c1Config
        [⟨⟨true, ["proj", "good.md"]⟩, some "ok"⟩,
         ⟨⟨true, ["proj", "bad.bin"]⟩, none⟩] = Except.ok l ∧
      (∀ a ∈ l, a.original_path ≠ FsPath.mk true ["proj", "bad.bin"]) ∧
      (∀ f ∈ [FsFile.mk ⟨true, ["proj", "good.md"]⟩ (some "ok"),
              FsFile.mk ⟨true, ["proj", "bad.bin"]⟩ none],
        Artifact.is_ignored f.path c1Config.source_dir
          c1Config.get_ignored_dirs = false →
        ∀ a, Artifact.new f c1Config.source_dir = some a → a ∈ l) :=
  collect_skips_failing_file c1Config
    [⟨⟨true, ["proj", "good.md"]⟩, some "ok"⟩,
     ⟨⟨true, ["proj", "bad.bin"]⟩, none⟩]
    ⟨⟨true, ["proj", "bad.bin"]⟩, none⟩
    (by decide) (by decide) (by decide)

theorem isPrefixOf_append_cancel (l a b : List String) :
    (l ++ a).isPrefixOf (l ++ b) = a.isPrefixOf b := by
  induction l with
  | nil => rfl
  | cons x xs ih => simp [List.isPrefixOf, ih]

/-- C5: the destination directory's base name is always a member of
the ignored-directory list, whatever the user-supplied additions, and
consequently every file lying under that name inside the source tree
is rejected by the ignore test. -/
theorem dest_dir_name_always_ignored (c : Config) (n : String)
    (h : c.dest_dir.fileName = some n) :
    n ∈ c.get_ignored_dirs ∧
    (parsePath n = ⟨false, [n]⟩ →
      ∀ (rest : List String),
        Artifact.is_ignored
          ⟨c.source_dir.absolute, c.source_dir.components ++ n :: rest⟩
          c.source_dir c.get_ignored_dirs = true) := by
  have h1 : n ∈ c.get_ignored_dirs := by
    unfold Config.get_ignored_dirs
    rw [h]
    simp
  refine ⟨h1, ?_⟩
  intro hp rest
  unfold Artifact.is_ignored
  rw [List.any_eq_true]
  refine ⟨n, h1, ?_⟩
  rw [hp]
  simp [FsPath.join, FsPath.startsWith, isPrefixOf_append_cancel,
    List.isPrefixOf]

/-- Witness for C5 at a configuration whose destination directory is
`./claude_files`: its base name is in the ignored list and a file
under `proj/claude_files` is ignored. -/
theorem dest_dir_name_always_ignored_witness :
    "claude_files" ∈ c1Config.get_ignored_dirs ∧
    Artifact.is_ignored ⟨true, ["proj", "claude_files", "old.txt"]⟩
      c1Config.source_dir c1Config.get_ignored_dirs = true :=
  ⟨(dest_dir_name_always_ignored c1Config "claude_files" (by decide)).1,
   (dest_dir_name_always_ignored c1Config "claude_files" (by decide)).2
     (by decide) ["old.txt"]⟩

/-- The ignore test as the spec words it: the path relative to the
source root lies under one of the ignored-directory names.  Kept
separate from `Artifact.is_ignored` (translated from the source) so
the two can be compared. -/
def specIsIgnoredRel (rel : FsPath) (ignored_dirs : List String) : Bool :=
  ignored_dirs.any (fun d => rel.startsWith (parsePath d))

/-- C6 counterexample: with source root `/x/s` and the ignored entry
`/x` (an absolute path, reachable through the user-supplied ignore
list), the file `/x/s/f.txt` has relative path `f.txt`, which does not
lie under the entry, yet `Artifact::is_ignored` returns `true`: the
code compares the absolute path against `source_dir.join(entry)`, and
`join` lets an absolute entry replace the source root. -/
theorem is_ignored_absolute_entry_counterexample :
    Artifact.is_ignored ⟨true, ["x", "s", "f.txt"]⟩ ⟨true, ["x", "s"]⟩
      ["/x"] = true ∧
    FsPath.stripDir ⟨true, ["x", "s", "f.txt"]⟩ ⟨true, ["x", "s"]⟩ =
      some ⟨false, ["f.txt"]⟩ ∧
    specIsIgnoredRel ⟨false, ["f.txt"]⟩ ["/x"] = false := by
  decide

/-- C6 as amended: for a file under the source root and an
ignored-directory list whose entries parse as relative paths (every
name the defaults, the destination name and ordinary user additions
produce), `is_ignored` holds iff the path relative to the source root
lies under one of the entries — so the test is insensitive to where
the source root itself is mounted. -/
theorem is_ignored_iff_relative (source rel : FsPath)
    (dirs : List String)
    (hrel : rel.absolute = false)
    (hdirs : ∀ d ∈ dirs, (parsePath d).absolute = false) :
    Artifact.is_ignored (source.join rel) source dirs = true ↔
      ∃ d ∈ dirs,
        ((parsePath d).components.isPrefixOf rel.components) = true := by
  have key : ∀ d ∈ dirs,
      ((source.join rel).startsWith (source.join (parsePath d))) =
        ((parsePath d).components.isPrefixOf rel.components) := by
    intro d hd
    simp only [FsPath.join, hrel, hdirs d hd, Bool.false_eq_true,
      if_false, FsPath.startsWith, beq_self_eq_true, Bool.true_and,
      isPrefixOf_append_cancel]
  unfold Artifact.is_ignored
  rw [List.any_eq_true]
  constructor
  · rintro ⟨d, hd, hsw⟩
    exact ⟨d, hd, (key d hd) ▸ hsw⟩
  · rintro ⟨d, hd, hpre⟩
    exact ⟨d, hd, (key d hd).symm ▸ hpre⟩

/-- Witness for the amended C6: a file in `node_modules` under source
root `/r` is ignored by the relative-path criterion. -/
theorem is_ignored_iff_relative_witness :
    Artifact.is_ignored
      (FsPath.join ⟨true, ["r"]⟩ ⟨false, ["node_modules", "m.js"]⟩)
      ⟨true, ["r"]⟩ ["node_modules"] = true :=
  (is_ignored_iff_relative ⟨true, ["r"]⟩ ⟨false, ["node_modules", "m.js"]⟩
      ["node_modules"] rfl (by decide)).mpr
    ⟨"node_modules", by decide, by decide⟩

theorem write_allGo_dirs (dest : FsPath) (wf : FsPath → Bool)
    (arts : List Artifact) (st : WriteState) :
    ((write_allGo dest wf arts st).2).dirs = st.dirs := by
  induction arts generalizing st with
  | nil => rfl
  | cons a rest ih =>
    unfold write_allGo Artifact.write
    by_cases h : wf (dest.join (parsePath a.new_filename)) = true
    · simp [h]
    · simp [h, ih]

theorem write_allGo_files_mono (dest : FsPath) (wf : FsPath → Bool)
    (arts : List Artifact) :
    ∀ (st : WriteState) (x : FsPath × String), x ∈ st.files →
      x ∈ ((write_allGo dest wf arts st).2).files := by
  induction arts with
  | nil => intro st x hx; exact hx
  | cons a rest ih =>
    intro st x hx
    unfold write_allGo Artifact.write
    by_cases h : wf (dest.join (parsePath a.new_filename)) = true
    · simpa [h] using hx
    · simp only [h, Bool.false_eq_true, if_false]
      exact ih _ x (List.mem_cons_of_mem _ hx)

theorem write_allGo_success (dest : FsPath) (wf : FsPath → Bool) :
    ∀ (arts : List Artifact) (st : WriteState),
      (∀ a ∈ arts, wf (dest.join (parsePath a.new_filename)) = false) →
      (write_allGo dest wf arts st).1 = true ∧
      ∀ a ∈ arts,
        (dest.join (parsePath a.new_filename), a.content) ∈
          ((write_allGo dest wf arts st).2).files := by
  intro arts
  induction arts with
  | nil => intro st h; exact ⟨rfl, by simp⟩
  | cons a rest ih =>
    intro st h
    have ha := h a (List.mem_cons_self a rest)
    unfold write_allGo Artifact.write
    simp only [ha, Bool.false_eq_true, if_false]
    obtain ⟨h1, h2⟩ :=
      ih ⟨st.dirs, (dest.join (parsePath a.new_filename), a.content)
            :: st.files⟩
        (fun b hb => h b (List.mem_cons_of_mem _ hb))
    refine ⟨h1, ?_⟩
    intro b hb
    rcases List.mem_cons.mp hb with hba | hbr
    · subst hba
      exact write_allGo_files_mono dest wf rest _ _ (List.mem_cons_self _ _)
    · exact h2 b hbr

theorem write_allGo_abort (dest : FsPath) (wf : FsPath → Bool) :
    ∀ (pre : List Artifact) (bad : Artifact) (post : List Artifact)
      (st : WriteState),
      (∀ a ∈ pre, wf (dest.join (parsePath a.new_filename)) = false) →
      wf (dest.join (parsePath bad.new_filename)) = true →
      write_allGo dest wf (pre ++ bad :: post) st =
        (false, (write_allGo dest wf pre st).2) := by
  intro pre
  induction pre with
  | nil =>
    intro bad post st hpre hbad
    simp only [List.nil_append]
    unfold write_allGo Artifact.write
    simp [hbad]
  | cons a pre' ih =>
    intro bad post st hpre hbad
    have ha := hpre a (List.mem_cons_self a pre')
    simp only [List.cons_append]
    unfold write_allGo Artifact.write
    simp only [ha, Bool.false_eq_true, if_false]
    exact ih bad post _
      (fun b hb => hpre b (List.mem_cons_of_mem _ hb)) hbad

/-- C8: `write_all` first materialises the destination directory and
its missing parents; when directory creation fails nothing is written
and the batch reports failure; when every individual write succeeds
the batch succeeds and each artifact's content sits at
`dest_dir/new_filename`, overwriting (first-match lookup) any previous
file of that name; and when one write fails the batch aborts there
while the artifacts written before it remain on disk. -/
theorem write_all_spec (artifacts : List Artifact) (dest_dir : FsPath)
    (writeFails : FsPath → Bool) (st : WriteState) :
    (Artifact.write_all artifacts dest_dir true writeFails st =
      (false, st)) ∧
    ((Artifact.write_all artifacts dest_dir false writeFails st).2.dirs =
      ancestors dest_dir ++ st.dirs) ∧
    ((∀ a ∈ artifacts,
        writeFails (dest_dir.join (parsePath a.new_filename)) = false) →
      (Artifact.write_all artifacts dest_dir false writeFails st).1 =
        true ∧
      ∀ a ∈ artifacts,
        (dest_dir.join (parsePath a.new_filename), a.content) ∈
          (Artifact.write_all artifacts dest_dir false writeFails
            st).2.files) ∧
    (∀ (a : Artifact),
      writeFails (dest_dir.join (parsePath a.new_filename)) = false →
      findContent
        (Artifact.write_all [a] dest_dir false writeFails st).2.files
        (dest_dir.join (parsePath a.new_filename)) = some a.content) ∧
    (∀ (pre : List Artifact) (bad : Artifact) (post : List Artifact),
      artifacts = pre ++ bad :: post →
      (∀ a ∈ pre,
        writeFails (dest_dir.join (parsePath a.new_filename)) = false) →
      writeFails (dest_dir.join (parsePath bad.new_filename)) = true →
      Artifact.write_all artifacts dest_dir false writeFails st =
        (false,
          (write_allGo dest_dir writeFails pre
            (create_dir_all dest_dir st)).2) ∧
      ∀ a ∈ pre,
        (dest_dir.join (parsePath a.new_filename), a.content) ∈
          (Artifact.write_all artifacts dest_dir false writeFails
            st).2.files) := by
  refine ⟨by simp [Artifact.write_all], ?_, ?_, ?_, ?_⟩
  · simp only [Artifact.write_all, Bool.false_eq_true, if_false]
    rw [write_allGo_dirs]
    rfl
  · intro h
    exact write_allGo_success dest_dir writeFails artifacts
      (create_dir_all dest_dir st) h
  · intro a ha
    simp [Artifact.write_all, write_allGo, Artifact.write, ha,
      create_dir_all, findContent]
  · intro pre bad post heq hpre hbad
    subst heq
    have habort := write_allGo_abort dest_dir writeFails pre bad post
      (create_dir_all dest_dir st) hpre hbad
    constructor
    · simp only [Artifact.write_all, Bool.false_eq_true, if_false]
      exact habort
    · intro a ha
      simp only [Artifact.write_all, Bool.false_eq_true, if_false,
        habort]
      exact (write_allGo_success dest_dir writeFails pre
        (create_dir_all dest_dir st) hpre).2 a ha

/-- Concrete artifact, destination and pre-existing disk state used to
witness the write-phase contract; the state already holds a file under
the artifact's destination name, to be overwritten. -/
def aW : Artifact := ⟨⟨true, ["proj", "sub", "a.txt"]⟩, "sub_a.txt", "new"⟩

/-- Destination directory for the write-phase witness. -/
def destW : FsPath := ⟨true, ["out", "claude_files"]⟩

/-- Artifact whose write the witness's failure function rejects. -/
def badW : Artifact := ⟨⟨true, ["proj", "bad.txt"]⟩, "bad.txt", "zzz"⟩

/-- Pre-existing disk state with an old file at `aW`'s destination. -/
def stW : WriteState :=
  ⟨[], [(destW.join (parsePath "sub_a.txt"), "old")]⟩

/-- Write-failure function rejecting exactly `badW`'s destination. -/
def wfBadW (p : FsPath) : Bool :=
  decide (p = destW.join (parsePath "bad.txt"))

/-- Witness for C8: a fully successful batch succeeds and overwrites
the existing file; a batch whose second write fails aborts with the
first artifact already written. -/
theorem write_all_spec_witness :
    ((Artifact.write_all [aW] destW false (fun _ => false) stW).1 =
      true) ∧
    (findContent
      (Artifact.write_all [aW] destW false (fun _ => false)
        stW).2.files
      (destW.join (parsePath aW.new_filename)) = some aW.content) ∧
    (Artifact.write_all [aW, badW] destW false wfBadW stW =
      (false,
        (write_allGo destW wfBadW [aW] (create_dir_all destW stW)).2)) ∧
    ((destW.join (parsePath aW.new_filename), aW.content) ∈
      (Artifact.write_all [aW, badW] destW false wfBadW stW).2.files) :=
  ⟨((write_all_spec [aW] destW (fun _ => false) stW).2.2.1
      (by decide)).1,
   (write_all_spec [aW] destW (fun _ => false) stW).2.2.2.1 aW
     (by decide),
   ((write_all_spec [aW, badW] destW wfBadW stW).2.2.2.2 [aW] badW []
      rfl (by decide) (by decide)).1,
   ((write_all_spec [aW, badW] destW wfBadW stW).2.2.2.2 [aW] badW []
      rfl (by decide) (by decide)).2 aW (by decide)⟩

/-- The clap default configuration of src/config.rs: source `.`,
destination `./claude_files`, everything else empty or absent. -/
def baseConfig : Config :=
  ⟨parsePath ".", parsePath "./claude_files", "", none, "", "", none,
   none⟩

/-- The configuration obtained by applying the `rust` preset to the
default configuration (used to witness the frame property on a
preset-derived starting point). -/
def rustPresetConfig : Config :=
  ((apply_preset baseConfig "rust").toOption).getD baseConfig

/-- Configuration-file value overriding only the destination
directory. -/
def cfW : ConfigFile := ⟨none, some "out", none, none, none, none⟩

/-- C9: `apply_to_config` overwrites exactly the fields the file
supplies as `Some` (list fields joined with commas) and leaves every
other field of the starting configuration — including all
preset-derived list fields and the `preset`/`config_file` fields —
unchanged. -/
theorem apply_to_config_frame (cf : ConfigFile) (c : Config) :
    ((cf.source_dir = none →
        (cf.apply_to_config c).source_dir = c.source_dir) ∧
     (∀ (s : String), cf.source_dir = some s →
        (cf.apply_to_config c).source_dir = parsePath s)) ∧
    ((cf.dest_dir = none →
        (cf.apply_to_config c).dest_dir = c.dest_dir) ∧
     (∀ (s : String), cf.dest_dir = some s →
        (cf.apply_to_config c).dest_dir = parsePath s)) ∧
    ((cf.additional_ignored_dirs = none →
        (cf.apply_to_config c).additional_ignored_dirs =
          c.additional_ignored_dirs) ∧
     (∀ (l : List String), cf.additional_ignored_dirs = some l →
        (cf.apply_to_config c).additional_ignored_dirs =
          joinChar ',' l)) ∧
    ((cf.target_dirs = none →
        (cf.apply_to_config c).target_dirs = c.target_dirs) ∧
     (∀ (l : List String), cf.target_dirs = some l →
        (cf.apply_to_config c).target_dirs = some (joinChar ',' l))) ∧
    ((cf.excluded_extensions = none →
        (cf.apply_to_config c).excluded_extensions =
          c.excluded_extensions) ∧
     (∀ (l : List String), cf.excluded_extensions = some l →
        (cf.apply_to_config c).excluded_extensions =
          joinChar ',' l)) ∧
    ((cf.included_extensions = none →
        (cf.apply_to_config c).included_extensions =
          c.included_extensions) ∧
     (∀ (l : List String), cf.included_extensions = some l →
        (cf.apply_to_config c).included_extensions =
          joinChar ',' l)) ∧
    (cf.apply_to_config c).preset = c.preset ∧
    (cf.apply_to_config c).config_file = c.config_file := by
  obtain ⟨s, d, ai, td, xe, ie⟩ := cf
  cases s <;> cases d <;> cases ai <;> cases td <;> cases xe <;>
    cases ie <;> simp [ConfigFile.apply_to_config]

/-- Witness for C9: overriding only the destination directory on the
`rust`-preset configuration changes that field and preserves the
preset-derived ignore/include/exclude/target fields and the remaining
fields. -/
theorem apply_to_config_frame_witness :
    (cfW.apply_to_config rustPresetConfig).dest_dir = parsePath "out" ∧
    (cfW.apply_to_config rustPresetConfig).source_dir =
      rustPresetConfig.source_dir ∧
    (cfW.apply_to_config rustPresetConfig).additional_ignored_dirs =
      rustPresetConfig.additional_ignored_dirs ∧
    (cfW.apply_to_config rustPresetConfig).target_dirs =
      rustPresetConfig.target_dirs ∧
    (cfW.apply_to_config rustPresetConfig).excluded_extensions =
      rustPresetConfig.excluded_extensions ∧
    (cfW.apply_to_config rustPresetConfig).included_extensions =
      rustPresetConfig.included_extensions ∧
    (cfW.apply_to_config rustPresetConfig).preset =
      rustPresetConfig.preset ∧
    (cfW.apply_to_config rustPresetConfig).config_file =
      rustPresetConfig.config_file :=
  ⟨(apply_to_config_frame cfW rustPresetConfig).2.1.2 "out" rfl,
   (apply_to_config_frame cfW rustPresetConfig).1.1 rfl,
   (apply_to_config_frame cfW rustPresetConfig).2.2.1.1 rfl,
   (apply_to_config_frame cfW rustPresetConfig).2.2.2.1.1 rfl,
   (apply_to_config_frame cfW rustPresetConfig).2.2.2.2.1.1 rfl,
   (apply_to_config_frame cfW rustPresetConfig).2.2.2.2.2.1.1 rfl,
   (apply_to_config_frame cfW rustPresetConfig).2.2.2.2.2.2.1,
   (apply_to_config_frame cfW rustPresetConfig).2.2.2.2.2.2.2⟩

end Rustifacts
